import Mathlib

/-!
Shallow embedding of the client-side document-ingestion pipeline of
`src/App.tsx`: the PDF line reconstructor (`extractPdfText`), the PPTX
presentation extractor (`extractPptxText`) and the ingestion coordinator
(`handleFileChange`), together with theorems settling the spec claims.
Coordinates (IEEE doubles in the source) are modelled as integers, which
the integral thresholds and the claims' example inputs live in; the asynchronous external
collaborators (PDF decoder, zip reader, file reader) are modelled by the
values they deliver, with `none` / `Except.error` standing for a rejected
promise.
-/

deriving instance DecidableEq for Except

/-- JavaScript's `String.prototype.trim()`: the string with leading and
trailing whitespace removed, computed on the character list. -/
def jsTrim (s : String) : String :=
  ⟨((s.data.dropWhile Char.isWhitespace).reverse.dropWhile Char.isWhitespace).reverse⟩

/-- JavaScript's `String.prototype.startsWith(p)`. -/
def startsWithStr (s p : String) : Bool :=
  p.data.isPrefixOf s.data

/-- JavaScript's `String.prototype.endsWith(p)`. -/
def endsWithStr (s p : String) : Bool :=
  p.data.isSuffixOf s.data

/-- JavaScript's `String.prototype.toLowerCase()` (on the basic-latin letters
the dispatch cares about). -/
def toLowerStr (s : String) : String :=
  ⟨s.data.map Char.toLower⟩

/-- One positioned text fragment as delivered by the PDF decoder:
`str` is the fragment text, `x` its horizontal origin (`transform[4]`),
`y` its vertical origin (`transform[5]`), `width` its optional rendered
width (absent width is read as 0 via `current.width || 0`). -/
structure PdfItem where
  str : String
  x : ℤ
  y : ℤ
  width : Option ℤ
  deriving DecidableEq, Repr

/-- The line-group accumulator of `extractPdfText`: the JS `Map` from a
representative `y` to the fragments of that line, in key-insertion order. -/
abbrev LineGroups := List (ℤ × List PdfItem)

/-- One step of the grouping loop body (`App.tsx` lines 225-237): walk the
existing keys in insertion order; the first key within vertical tolerance 5
(`Math.abs(lineY - y) < 5`) receives the fragment (pushed at the end of its
list); otherwise a new group keyed by the fragment's own `y` is appended. -/
def insertItem : LineGroups → PdfItem → LineGroups
  | [], it => [(it.y, [it])]
  | g :: gs, it =>
      if (g.1 - it.y).natAbs < 5 then (g.1, g.2 ++ [it]) :: gs else g :: insertItem gs it

/-- The guard of the grouping loop (`App.tsx` line 224): fragments whose text
is empty or whitespace-only are skipped before grouping
(`!item.str || item.str.trim() === ''`; the empty string also trims to
empty, so one test covers both disjuncts). -/
def groupStep (gs : LineGroups) (it : PdfItem) : LineGroups :=
  if jsTrim it.str = "" then gs else insertItem gs it

/-- The `items.forEach(...)` loop building the `lines` map, in fragment
arrival order. -/
def groupLines (items : List PdfItem) : LineGroups :=
  items.foldl groupStep []

/-- Insert `x` after every element `y` of an already-sorted list with
`le y x = true`; an element arriving later is placed after equal elements
already present, reproducing the stable placement of JavaScript's
`Array.prototype.sort`. -/
def insertLe (le : α → α → Bool) (x : α) : List α → List α
  | [] => [x]
  | y :: ys => if le y x then y :: insertLe le x ys else x :: y :: ys

/-- Stable sort by left-to-right insertion, modelling JS `Array.prototype.sort`
with a consistent comparator. -/
def stableSort (le : α → α → Bool) (l : List α) : List α :=
  l.foldl (fun acc x => insertLe le x acc) []

/-- Spacing heuristic between two consecutive fragments of one line
(`App.tsx` lines 250-254): `gap = next.x - (current.x + (current.width || 0))`;
more than 20 units yields four spaces, more than 2 yields one, else nothing. -/
def gapSpacer (c n : PdfItem) : String :=
  let gap := n.x - (c.x + c.width.getD 0)
  if gap > 20 then "    " else if gap > 2 then " " else ""

/-- Flatten one sorted line (`App.tsx` lines 245-255): each fragment's text,
with the heuristic spacer inserted before the next fragment when one exists. -/
def lineText : List PdfItem → String
  | [] => ""
  | [i] => i.str
  | i :: j :: rest => i.str ++ gapSpacer i j ++ lineText (j :: rest)

/-- The first group of `gs` keyed exactly `y` (the JS `lines.get(y)`),
defaulting to `[]` when absent (`lines.get(y) || []`). -/
def groupAt (gs : LineGroups) (y : ℤ) : List PdfItem :=
  ((gs.find? (fun g => decide (g.1 = y))).map Prod.snd).getD []

/-- Reconstruct one page's text (`App.tsx` lines 221-257): group the fragments
into lines, sort the representative keys descending (`sort((a, b) => b - a)`),
sort each line's fragments by ascending `x`, flatten with the spacing
heuristic, and append a newline after every line. -/
def pageText (items : List PdfItem) : String :=
  let lns := groupLines items
  let sortedY := stableSort (fun a b => decide (b ≤ a)) (lns.map Prod.fst)
  sortedY.foldl
    (fun acc y =>
      acc ++ lineText (stableSort (fun a b => decide (a.x ≤ b.x)) (groupAt lns y)) ++ "\n")
    ""

/-- The message of the error thrown by `extractPdfText`'s catch-all handler. -/
def pdfErrMsg : String :=
  "Failed to extract text from PDF. The file might be corrupted or complex."

/-- The page loop of `extractPdfText` (`App.tsx` lines 216-259): pages are
visited in ascending 1-based index order; a page whose decode fails
(modelled `none`) aborts the whole extraction through the catch-all handler,
discarding any text accumulated so far. -/
def pdfPagesLoop : Nat → List (Option (List PdfItem)) → String → Except String String
  | _, [], acc => .ok acc
  | _, none :: _, _ => .error pdfErrMsg
  | i, some pg :: rest, acc =>
      pdfPagesLoop (i + 1) rest (acc ++ "--- Page " ++ toString i ++ " ---\n" ++ pageText pg ++ "\n\n")

/-- `extractPdfText` (`App.tsx` lines 209-265). The input models the PDF
decoder collaborator: `none` is a document whose decode (`getDocument`)
fails; `some pages` a document with those pages in order, each page `none`
when its own decode (`getPage`/`getTextContent`) fails and otherwise the
page's positioned fragments. -/
def extractPdfText (doc : Option (List (Option (List PdfItem)))) : Except String String :=
  match doc with
  | none => .error pdfErrMsg
  | some pages => pdfPagesLoop 1 pages ""

/-- Concatenation of a list of strings, in order. -/
def strConcat : List String → String
  | [] => ""
  | s :: rest => s ++ strConcat rest

/-- Drop the literal `pat` from the head of `s`, returning the rest, or fail. -/
def dropPref : List Char → List Char → Option (List Char)
  | [], s => some s
  | _ :: _, [] => none
  | p :: ps, c :: cs => if p = c then dropPref ps cs else none

/-- Match the text-run regex `<a:t>([^<]*)<\/a:t>` at the head of `s`: the
literal `<a:t>`, a maximal run of non-`<` characters, then the literal
`</a:t>` (no backtracking arises: the character class excludes the `<` the
closing literal starts with). Returns the full matched string and the
remaining suffix. -/
def matchRunAt (s : List Char) : Option (String × List Char) :=
  match dropPref "<a:t>".data s with
  | none => none
  | some s1 =>
      let content := s1.takeWhile (fun c => !(c = '<' : Bool))
      let s2 := s1.dropWhile (fun c => !(c = '<' : Bool))
      match dropPref "</a:t>".data s2 with
      | none => none
      | some s3 => some (⟨"<a:t>".data ++ content ++ "</a:t>".data⟩, s3)

/-- The global regex scan `content.match(/<a:t>([^<]*)<\/a:t>/g)`: walk the
text left to right; on a match, record the matched string and continue after
it, otherwise advance one character. The fuel argument (instantiated with
the text length) only bounds the recursion: every step consumes at least one
character, so the scan never runs dry. -/
def textRunsAux : Nat → List Char → List String
  | 0, _ => []
  | _ + 1, [] => []
  | fuel + 1, c :: rest =>
      match matchRunAt (c :: rest) with
      | some (m, rest') => m :: textRunsAux fuel rest'
      | none => textRunsAux fuel rest

/-- All text-run matches of a slide (or notes) XML text, as full matched
strings including the tag wrappers (`content.match(...)`, `null` modelled as
the empty list). -/
def textRuns (content : String) : List String :=
  textRunsAux content.data.length content.data

/-- `m.replace(/<\/?a:t>/g, "")`: scan the matched string and drop every
occurrence of `<a:t>` or `</a:t>`, keeping everything else. Fuel as in
`textRunsAux`. -/
def stripTagsAux : Nat → List Char → List Char
  | 0, _ => []
  | _ + 1, [] => []
  | fuel + 1, c :: rest =>
      if "<a:t>".data.isPrefixOf (c :: rest) then stripTagsAux fuel (rest.drop 4)
      else if "</a:t>".data.isPrefixOf (c :: rest) then stripTagsAux fuel (rest.drop 5)
      else c :: stripTagsAux fuel rest

/-- Strip the tag wrappers from one text-run match. -/
def stripRunTags (m : String) : String :=
  ⟨stripTagsAux m.data.length m.data⟩

/-- Match the slide-number regex `slide(\d+)\.xml` at the head of `s`: the
literal `slide`, a maximal nonempty digit run (the capture), then the
literal `.xml` (again no backtracking: `.` is not a digit). Returns the
captured digit string. -/
def matchSlideAt (s : List Char) : Option String :=
  match dropPref "slide".data s with
  | none => none
  | some s1 =>
      let digits := s1.takeWhile Char.isDigit
      let s2 := s1.dropWhile Char.isDigit
      if digits.isEmpty then none
      else
        match dropPref ".xml".data s2 with
        | none => none
        | some _ => some ⟨digits⟩

/-- The regex search for the leftmost match of `slide(\d+)\.xml`. -/
def slideNumAux : Nat → List Char → Option String
  | 0, _ => none
  | _ + 1, [] => none
  | fuel + 1, c :: rest =>
      match matchSlideAt (c :: rest) with
      | some d => some d
      | none => slideNumAux fuel rest

/-- `slideFile.match(/slide(\d+)\.xml/)?.[1] || "??"`: the capture of the
leftmost match of the slide-number pattern in an entry name, `"??"` when the
name has no match. -/
def slideNumOf (name : String) : String :=
  (slideNumAux name.data.length name.data).getD "??"

/-- A PPTX archive as the zip-reader collaborator delivers it: the named
entries in enumeration order (`Object.keys(zip.files)` order), each with its
text content. -/
abbrev PptxArchive := List (String × String)

/-- The `zip.files[name]` lookup. -/
def entryAt (ar : PptxArchive) (name : String) : Option String :=
  (ar.find? (fun e => decide (e.1 = name))).map Prod.snd

/-- The slide-entry filter of `extractPptxText` (`App.tsx` line 271). -/
def isSlideEntry (name : String) : Bool :=
  startsWithStr name "ppt/slides/slide" && endsWithStr name ".xml"

/-- The body of the slide loop of `extractPptxText` (`App.tsx` lines
272-288) for one slide entry, as the string it appends to the accumulated
output: the tagged slide block, emitted only when the slide matched at least
one text run (`if (matches)`), then the notes line, emitted only when the
correspondingly-numbered notes entry exists and itself matched at least one
text run. -/
def slideChunk (ar : PptxArchive) (e : String × String) : String :=
  let n := slideNumOf e.1
  let slidePart :=
    match textRuns e.2 with
    | [] => ""
    | runs =>
        "--- Slide " ++ n ++ " ---\n" ++ String.intercalate " " (runs.map stripRunTags) ++ "\n"
  let notesPart :=
    match entryAt ar ("ppt/notesSlides/notesSlide" ++ n ++ ".xml") with
    | none => ""
    | some notesContent =>
        match textRuns notesContent with
        | [] => ""
        | nruns =>
            "[Slide " ++ n ++ " Notes: " ++
              String.intercalate " " (nruns.map stripRunTags) ++ "]\n"
  slidePart ++ notesPart

/-- `extractPptxText` (`App.tsx` lines 267-290), over an already-opened
archive (a rejected `JSZip.loadAsync` is modelled at the coordinator, where
its catch lives). -/
def extractPptxText (ar : PptxArchive) : String :=
  (ar.filter (fun e => isSlideEntry e.1)).foldl (fun acc e => acc ++ slideChunk ar e) ""

/-- The 50 MiB size ceiling (`App.tsx` line 16). -/
def MAX_FILE_SIZE : Nat := 50 * 1024 * 1024

/-- The MIME type stored for presentation files (`App.tsx` line 318). -/
def pptxMime : String :=
  "application/vnd.openxmlformats-officedocument.presentationml.presentation"

/-- One raw selected file, together with what each external collaborator
would deliver for it: `dataUrl` is what `FileReader.readAsDataURL` yields,
`pdfDoc` what the PDF decoder yields (see `extractPdfText`), and `pptx`
what `JSZip.loadAsync` yields (`none` for an unreadable archive). -/
structure RawFile where
  name : String
  type : String
  size : Nat
  dataUrl : String
  pdfDoc : Option (List (Option (List PdfItem)))
  pptx : Option PptxArchive
  deriving Repr

/-- The `UploadedFile` record (`src/types.ts`): `preview` is optional. -/
structure UploadedFile where
  name : String
  type : String
  data : String
  preview : Option String := none
  deriving DecidableEq, Repr

/-- The size-limit rejection message for `name` (`App.tsx` line 298). -/
def sizeErrMsg (name : String) : String :=
  "File \"" ++ name ++ "\" exceeds the 50MB limit."

/-- The classification-and-dispatch chain of the loop body of
`handleFileChange` (`App.tsx` lines 301-324), after the size check passed:
an `image/`-MIME file is stored as its base64 data URL with a preview; a
file named `*.pdf` (case-insensitively) or declared `application/pdf` runs
the PDF extractor; a file named `*.pptx` runs the PPTX extractor; anything
else is rejected as unsupported. `Except.ok` is the record pushed onto
`newFiles`; `Except.error` is the argument of this file's `setError` call
(for the PDF route, `err.message || "Failed to parse PDF file."`, where the
thrown message is never empty). -/
def classifyFile (f : RawFile) : Except String UploadedFile :=
  if startsWithStr f.type "image/" then
    .ok { name := f.name, type := f.type, data := f.dataUrl, preview := some f.dataUrl }
  else if endsWithStr (toLowerStr f.name) ".pdf" || decide (f.type = "application/pdf") then
    match extractPdfText f.pdfDoc with
    | .ok text => .ok { name := f.name, type := "application/pdf", data := text }
    | .error msg => .error msg
  else if endsWithStr (toLowerStr f.name) ".pptx" then
    match f.pptx with
    | some ar => .ok { name := f.name, type := pptxMime, data := extractPptxText ar }
    | none => .error "Failed to parse PPTX file."
  else
    .error ("Unsupported file type: " ++ f.name)

/-- The per-file body of `handleFileChange` (`App.tsx` lines 296-325): the
size check, then the dispatch chain. -/
def processFile (f : RawFile) : Except String UploadedFile :=
  if f.size > MAX_FILE_SIZE then .error (sizeErrMsg f.name) else classifyFile f

/-- `handleFileChange` (`App.tsx` lines 292-328) on one batch: files are
processed sequentially in input order; each produced record is pushed onto
`newFiles`, and each failure message overwrites the single `error` state
(reset to `null` by `setError(null)` before the loop). The result is the
batch's `newFiles` list (appended by the caller to the already-ingested
files) and the final error state. -/
def handleFileChange (files : List RawFile) : List UploadedFile × Option String :=
  files.foldl
    (fun acc f =>
      match processFile f with
      | .ok u => (acc.1 ++ [u], acc.2)
      | .error m => (acc.1, some m))
    ([], none)

example : pageText [⟨"A", 0, 700, none⟩] = "A\n" := by decide
example : lineText [⟨"A", 0, 0, some 5⟩, ⟨"B", 30, 0, none⟩] = "A    B" := by decide
example : lineText [⟨"A", 0, 0, some 5⟩, ⟨"B", 15, 0, none⟩] = "A B" := by decide
example : lineText [⟨"A", 0, 0, some 5⟩, ⟨"B", 6, 0, none⟩] = "AB" := by decide
example :
    pageText [⟨"b", 0, 650, none⟩, ⟨"a", 0, 700, none⟩, ⟨"c", 0, 600, none⟩] =
      "a\nb\nc\n" := by decide
example : textRuns "<a:t>Intro</a:t>" = ["<a:t>Intro</a:t>"] := by decide
example : stripRunTags "<a:t>Intro</a:t>" = "Intro" := by decide
example : slideNumOf "ppt/slides/slide12.xml" = "12" := by decide
example : slideNumOf "ppt/slides/slideX.xml" = "??" := by decide
example :
    extractPptxText
      [("ppt/slides/slide1.xml", "<a:t>Intro</a:t>"),
       ("ppt/notesSlides/notesSlide1.xml", "<a:t>remember X</a:t>")] =
      "--- Slide 1 ---\nIntro\n[Slide 1 Notes: remember X]\n" := by decide
example : extractPptxText [("ppt/slides/slide1.xml", "<p:sp/>")] = "" := by decide

/-! ### Helper lemmas -/

theorem foldl_append_eq_strConcat (g : α → String) (l : List α) :
    ∀ acc : String, l.foldl (fun a x => a ++ g x) acc = acc ++ strConcat (l.map g) := by
  induction l with
  | nil => intro acc; simp [strConcat, String.append_empty]
  | cons x l ih => intro acc; simp [strConcat, ih, String.append_assoc]

theorem foldl_append_nl_eq_strConcat (g : α → String) (l : List α) :
    ∀ acc : String,
      l.foldl (fun a x => a ++ g x ++ "\n") acc = acc ++ strConcat (l.map (fun x => g x ++ "\n")) := by
  have hfun : (fun (a : String) (x : α) => a ++ g x ++ "\n") = fun a x => a ++ (g x ++ "\n") := by
    funext a x
    rw [String.append_assoc]
  intro acc
  rw [hfun, foldl_append_eq_strConcat (fun x => g x ++ "\n") l acc]

theorem mem_insertLe {le : α → α → Bool} {x z : α} :
    ∀ {l : List α}, z ∈ insertLe le x l ↔ z = x ∨ z ∈ l
  | [] => by simp [insertLe]
  | y :: ys => by
      by_cases h : le y x = true
      · simp only [insertLe, h, if_pos]
        rw [List.mem_cons, @mem_insertLe _ le x z ys, List.mem_cons]
        tauto
      · simp only [insertLe, if_neg h]
        simp [List.mem_cons]

theorem pairwise_insertLe {le : α → α → Bool}
    (htot : ∀ a b, le a b = false → le b a = true)
    (htrans : ∀ a b c, le a b = true → le b c = true → le a c = true) (x : α) :
    ∀ {l : List α}, l.Pairwise (fun a b => le a b = true) →
      (insertLe le x l).Pairwise (fun a b => le a b = true)
  | [], _ => by simp [insertLe]
  | y :: ys, h => by
      rcases List.pairwise_cons.mp h with ⟨hy, hys⟩
      by_cases hle : le y x = true
      · simp only [insertLe, hle, if_pos]
        refine List.pairwise_cons.mpr ⟨?_, pairwise_insertLe htot htrans x hys⟩
        intro z hz
        rcases mem_insertLe.mp hz with rfl | hz
        · exact hle
        · exact hy z hz
      · simp only [insertLe, if_neg hle]
        have hxy : le x y = true := htot y x (Bool.eq_false_iff.mpr hle)
        refine List.pairwise_cons.mpr ⟨?_, h⟩
        intro z hz
        rcases List.mem_cons.mp hz with rfl | hz
        · exact hxy
        · exact htrans x y z hxy (hy z hz)

theorem pairwise_stableSort {le : α → α → Bool}
    (htot : ∀ a b, le a b = false → le b a = true)
    (htrans : ∀ a b c, le a b = true → le b c = true → le a c = true) (l : List α) :
    (stableSort le l).Pairwise (fun a b => le a b = true) := by
  have key : ∀ (l' : List α) (acc : List α), acc.Pairwise (fun a b => le a b = true) →
      (l'.foldl (fun acc x => insertLe le x acc) acc).Pairwise (fun a b => le a b = true) := by
    intro l'
    induction l' with
    | nil => intro acc h; simpa using h
    | cons x l' ih =>
        intro acc h
        exact ih (insertLe le x acc) (pairwise_insertLe htot htrans x h)
  exact key l [] (by simp)

theorem pdfPagesLoop_err :
    ∀ (pages : List (Option (List PdfItem))) (i : Nat) (acc : String),
      none ∈ pages → pdfPagesLoop i pages acc = .error pdfErrMsg
  | [], _, _, h => by simp at h
  | none :: rest, i, acc, _ => by simp [pdfPagesLoop]
  | some pg :: rest, i, acc, h => by
      have : none ∈ rest := by
        rcases List.mem_cons.mp h with h' | h'
        · exact absurd h' (by simp)
        · exact h'
      simp only [pdfPagesLoop]
      exact pdfPagesLoop_err rest (i + 1) _ this

/-- The tagged block appended for page `i` with fragments `p.2`:
`--- Page {i} ---\n{pageText}\n\n` (`App.tsx` line 258). -/
def pageBlock (p : Nat × List PdfItem) : String :=
  "--- Page " ++ toString p.1 ++ " ---\n" ++ pageText p.2 ++ "\n\n"

theorem pdfPagesLoop_ok :
    ∀ (pages : List (List PdfItem)) (i : Nat) (acc : String),
      pdfPagesLoop i (pages.map some) acc =
        .ok (acc ++ strConcat ((List.enumFrom i pages).map pageBlock))
  | [], i, acc => by simp [pdfPagesLoop, strConcat, String.append_empty]
  | pg :: pages, i, acc => by
      simp only [List.map_cons, pdfPagesLoop, List.enumFrom, strConcat, pageBlock,
        pdfPagesLoop_ok pages (i + 1)]
      rw [Except.ok.injEq]
      simp [String.append_assoc]

theorem natAbs_lt_five (a : ℤ) : a.natAbs < 5 ↔ |a| < 5 := by
  rw [Int.abs_eq_natAbs]
  exact_mod_cast Iff.rfl

theorem insertItem_found :
    ∀ (gs1 : LineGroups) (g : ℤ × List PdfItem) (gs2 : LineGroups) (it : PdfItem),
      (∀ g' ∈ gs1, ¬ (g'.1 - it.y).natAbs < 5) → (g.1 - it.y).natAbs < 5 →
      insertItem (gs1 ++ g :: gs2) it = gs1 ++ (g.1, g.2 ++ [it]) :: gs2
  | [], g, gs2, it, _, h2 => by simp [insertItem, h2]
  | g' :: gs1, g, gs2, it, h1, h2 => by
      have hg' : ¬ (g'.1 - it.y).natAbs < 5 := h1 g' (by simp)
      simp only [List.cons_append, insertItem, if_neg hg']
      exact congrArg (g' :: ·) (insertItem_found gs1 g gs2 it (fun x hx => h1 x (by simp [hx])) h2)

theorem insertItem_notFound :
    ∀ (gs : LineGroups) (it : PdfItem), (∀ g ∈ gs, ¬ (g.1 - it.y).natAbs < 5) →
      insertItem gs it = gs ++ [(it.y, [it])]
  | [], _, _ => rfl
  | g :: gs, it, h => by
      simp only [insertItem, if_neg (h g (by simp))]
      exact congrArg (g :: ·) (insertItem_notFound gs it (fun x hx => h x (by simp [hx])))

/-- The representative keys of a page's line-groups in output order:
descending (`sort((a, b) => b - a)` on the `Map` keys). -/
def sortedKeys (items : List PdfItem) : List ℤ :=
  stableSort (fun a b => decide (b ≤ a)) ((groupLines items).map Prod.fst)

/-- One line-group's fragments in output order: ascending horizontal origin
(`sort((a, b) => a.transform[4] - b.transform[4])`). -/
def lineItemsAt (items : List PdfItem) (y : ℤ) : List PdfItem :=
  stableSort (fun a b => decide (a.x ≤ b.x)) (groupAt (groupLines items) y)

theorem pageText_eq (items : List PdfItem) :
    pageText items =
      strConcat ((sortedKeys items).map (fun y => lineText (lineItemsAt items y) ++ "\n")) := by
  have h := foldl_append_nl_eq_strConcat
    (fun y => lineText (lineItemsAt items y)) (sortedKeys items) ""
  rw [String.empty_append] at h
  exact h

/-! ### Claim theorems -/

/-- C3: a fragment with non-blank text is assigned to the first existing
line-group, in group-creation order, whose representative vertical origin
differs from the fragment's `y` by less than 5; when no group is within
tolerance a new group keyed by the fragment's own `y` is appended; blank
fragments are discarded; and the grouping runs as a fold in fragment-arrival
order (no sorting before grouping). -/
theorem grouping_first_match (gs : LineGroups) (it : PdfItem) :
    (jsTrim it.str = "" → groupStep gs it = gs) ∧
    (jsTrim it.str ≠ "" →
      (∀ gs1 g gs2, gs = gs1 ++ g :: gs2 →
          (∀ g' ∈ gs1, ¬ |g'.1 - it.y| < 5) → |g.1 - it.y| < 5 →
          groupStep gs it = gs1 ++ (g.1, g.2 ++ [it]) :: gs2) ∧
      ((∀ g ∈ gs, ¬ |g.1 - it.y| < 5) → groupStep gs it = gs ++ [(it.y, [it])])) ∧
    (∀ items, groupLines items = items.foldl groupStep []) := by
  refine ⟨fun h => by simp [groupStep, h], fun h => ⟨?_, ?_⟩, fun _ => rfl⟩
  · intro gs1 g gs2 hsplit h1 h2
    subst hsplit
    rw [groupStep, if_neg h]
    exact insertItem_found gs1 g gs2 it
      (fun g' hg' => by rw [natAbs_lt_five]; exact h1 g' hg')
      ((natAbs_lt_five _).mpr h2)
  · intro h1
    rw [groupStep, if_neg h]
    exact insertItem_notFound gs it (fun g hg => by rw [natAbs_lt_five]; exact h1 g hg)

/-- Witness for C3: on groups keyed 0 and 3, a non-blank fragment at
`y = 4` joins the group keyed 0 (the first within tolerance, created
earlier) even though the group keyed 3 is strictly closer. -/
theorem grouping_first_match_witness :
    groupStep [((0 : ℤ), [⟨"a", 0, 0, none⟩]), (3, [⟨"b", 0, 3, none⟩])] ⟨"Z", 1, 4, none⟩ =
      [(0, [⟨"a", 0, 0, none⟩, ⟨"Z", 1, 4, none⟩]), (3, [⟨"b", 0, 3, none⟩])] :=
  (((grouping_first_match
      [((0 : ℤ), [⟨"a", 0, 0, none⟩]), (3, [⟨"b", 0, 3, none⟩])] ⟨"Z", 1, 4, none⟩).2.1
    (by decide)).1
    [] ((0 : ℤ), [⟨"a", 0, 0, none⟩]) [(3, [⟨"b", 0, 3, none⟩])] rfl
    (by simp) (by decide))

/-- C5 (amended): a page's output is the flattened line texts, each
terminated by a newline (not merely intercalated), where line-groups come in
descending order of representative vertical origin and each line's fragments
in ascending order of horizontal origin; empty fragment input yields the
empty output. -/
theorem page_output_ordering (items : List PdfItem) :
    pageText items =
      strConcat ((sortedKeys items).map (fun y => lineText (lineItemsAt items y) ++ "\n")) ∧
    (sortedKeys items).Pairwise (fun a b => b ≤ a) ∧
    (∀ y, (lineItemsAt items y).Pairwise (fun a b => a.x ≤ b.x)) ∧
    pageText [] = "" := by
  refine ⟨pageText_eq items, ?_, fun y => ?_, rfl⟩
  · have h := @pairwise_stableSort ℤ (fun a b : ℤ => decide (b ≤ a))
      (fun a b hab => by
        simp only [decide_eq_false_iff_not, not_le] at hab
        simpa using hab.le)
      (fun a b c hab hbc => by
        simp only [decide_eq_true_eq] at hab hbc ⊢
        exact hbc.trans hab)
      ((groupLines items).map Prod.fst)
    exact h.imp (fun hab => by simpa using hab)
  · have h := @pairwise_stableSort PdfItem (fun a b : PdfItem => decide (a.x ≤ b.x))
      (fun a b hab => by
        simp only [decide_eq_false_iff_not, not_le] at hab
        simpa using hab.le)
      (fun a b c hab hbc => by
        simp only [decide_eq_true_eq] at hab hbc ⊢
        exact hab.trans hbc)
      (groupAt (groupLines items) y)
    exact h.imp (fun hab => by simpa using hab)

/-- Modelled from the spec: the claim's output shape for one page, the
flattened line texts joined by single newlines. -/
def pageTextSpecJoined (items : List PdfItem) : String :=
  String.intercalate "\n" ((sortedKeys items).map (fun y => lineText (lineItemsAt items y)))

/-- Counterexample to C5 as stated: a single-fragment page produces `"A\n"`,
while joining the (single) flattened line text by newline produces `"A"`:
the code terminates every line with a newline instead of joining. -/
theorem page_output_counterexample :
    pageText [⟨"A", 0, 700, none⟩] = "A\n" ∧
    pageTextSpecJoined [⟨"A", 0, 700, none⟩] = "A" ∧
    pageText [⟨"A", 0, 700, none⟩] ≠ pageTextSpecJoined [⟨"A", 0, 700, none⟩] :=
  ⟨by decide, by decide, by decide⟩

/-- The record a per-file outcome contributes to `newFiles` (if any). -/
def exceptOk? : Except String UploadedFile → Option UploadedFile
  | .ok u => some u
  | .error _ => none

/-- The message a per-file outcome writes to the `error` state (if any). -/
def exceptErr? : Except String UploadedFile → Option String
  | .ok _ => none
  | .error m => some m

/-- The final value of a single write-over cell initialised to `d` after the
listed values are written to it in order: the `setError` state. -/
def lastOr (d : Option String) : List String → Option String
  | [] => d
  | m :: rest => lastOr (some m) rest

theorem handleFileChange_go :
    ∀ (files : List RawFile) (accL : List UploadedFile) (accE : Option String),
      (files.foldl
        (fun acc f =>
          match processFile f with
          | .ok u => (acc.1 ++ [u], acc.2)
          | .error m => (acc.1, some m))
        (accL, accE)) =
      (accL ++ files.filterMap (fun f => exceptOk? (processFile f)),
       lastOr accE (files.filterMap (fun f => exceptErr? (processFile f))))
  | [], accL, accE => by simp [lastOr]
  | f :: files, accL, accE => by
      cases hpf : processFile f with
      | ok u =>
          simp only [List.foldl_cons, hpf, List.filterMap_cons, exceptOk?, exceptErr?,
            handleFileChange_go files (accL ++ [u]) accE, List.append_assoc]
          rfl
      | error m =>
          simp only [List.foldl_cons, hpf, List.filterMap_cons, exceptOk?, exceptErr?,
            handleFileChange_go files accL (some m)]
          rfl

theorem lastOr_some : ∀ (l : List String) (a : String), lastOr (some a) l = some (l.getLastD a)
  | [], _ => rfl
  | m :: l, a => by rw [lastOr, lastOr_some l m, List.getLastD_cons]

theorem lastOr_none_getLast? : ∀ l : List String, lastOr none l = l.getLast?
  | [] => rfl
  | m :: l => by rw [lastOr, lastOr_some l m, List.getLast?_cons, List.getLastD_eq_getLast?]

theorem handleFileChange_eq (files : List RawFile) :
    handleFileChange files =
      (files.filterMap (fun f => exceptOk? (processFile f)),
       (files.filterMap (fun f => exceptErr? (processFile f))).getLast?) := by
  rw [handleFileChange, handleFileChange_go files [] none, List.nil_append,
    lastOr_none_getLast?]

/-- C1 (amended): each file of the batch contributes its record to
`newFiles` when it succeeds and writes its one message to the single error
state when it fails; the error state retains only the LAST failing file's
message (earlier messages of the same batch are overwritten, not surfaced
together), while all successfully processed files are still returned, in
input order. -/
theorem batch_error_last_write (files : List RawFile) :
    handleFileChange files =
      (files.filterMap (fun f => exceptOk? (processFile f)),
       (files.filterMap (fun f => exceptErr? (processFile f))).getLast?) :=
  handleFileChange_eq files

/-- `pat` occurs somewhere in the character list `s`. -/
def hasInfixCl : List Char → List Char → Bool
  | [], pat => pat.isEmpty
  | c :: rest, pat => pat.isPrefixOf (c :: rest) || hasInfixCl rest pat

/-- `pat` occurs in `s` as a contiguous substring. -/
def hasSubstr (s pat : String) : Bool :=
  hasInfixCl s.data pat.data

/-- Counterexample to C1 as stated: a batch whose two files both fail (one
oversized, one an unreadable PPTX) surfaces only the single message of the
second failure; the first file's message (which did name it) is overwritten,
and the surviving message names neither file — so not every failing file's
message is surfaced, and decode-failure messages do not name the file. -/
theorem batch_error_counterexample :
    handleFileChange
      [⟨"a.bin", "application/octet-stream", 52428801, "", none, none⟩,
       ⟨"b.pptx", "text/plain", 10, "", none, none⟩] =
      ([], some "Failed to parse PPTX file.") ∧
    hasSubstr "Failed to parse PPTX file." "a.bin" = false ∧
    hasSubstr "Failed to parse PPTX file." "b.pptx" = false ∧
    hasSubstr (sizeErrMsg "a.bin") "a.bin" = true :=
  ⟨by decide, by decide, by decide, by decide⟩

/-- C8: a file strictly larger than 50 MiB is rejected with the size-limit
message naming it, contributes no record while the rest of the batch is
processed unchanged; a file of up to exactly 50 MiB passes the size check
and proceeds to classification. -/
theorem size_ceiling (f : RawFile) :
    (f.size > 50 * 1024 * 1024 → processFile f = .error (sizeErrMsg f.name)) ∧
    (f.size ≤ 50 * 1024 * 1024 → processFile f = classifyFile f) ∧
    (∀ pre post, f.size > 50 * 1024 * 1024 →
      (handleFileChange (pre ++ f :: post)).1 = (handleFileChange (pre ++ post)).1) := by
  have herr : f.size > 50 * 1024 * 1024 → processFile f = .error (sizeErrMsg f.name) := by
    intro h
    rw [processFile, if_pos (show f.size > MAX_FILE_SIZE by simpa [MAX_FILE_SIZE] using h)]
  refine ⟨herr, fun h => ?_, fun pre post h => ?_⟩
  · rw [processFile,
      if_neg (show ¬ f.size > MAX_FILE_SIZE by simpa [MAX_FILE_SIZE] using Nat.not_lt.mpr h)]
  · rw [handleFileChange_eq, handleFileChange_eq]
    simp [List.filterMap_append, List.filterMap_cons, herr h, exceptOk?]

theorem processFile_ok_classify {f : RawFile} {u : UploadedFile}
    (h : processFile f = .ok u) : classifyFile f = .ok u := by
  unfold processFile at h
  split at h
  · exact absurd h (by simp)
  · exact h

theorem classifyFile_cases {f : RawFile} {u : UploadedFile} (h : classifyFile f = .ok u) :
    (startsWithStr f.type "image/" = true ∧
      u = ⟨f.name, f.type, f.dataUrl, some f.dataUrl⟩) ∨
    (startsWithStr f.type "image/" = false ∧
      (endsWithStr (toLowerStr f.name) ".pdf" || decide (f.type = "application/pdf")) = true ∧
      ∃ text, extractPdfText f.pdfDoc = .ok text ∧
        u = ⟨f.name, "application/pdf", text, none⟩) ∨
    (startsWithStr f.type "image/" = false ∧
      (endsWithStr (toLowerStr f.name) ".pdf" || decide (f.type = "application/pdf")) = false ∧
      endsWithStr (toLowerStr f.name) ".pptx" = true ∧
      ∃ ar, f.pptx = some ar ∧ u = ⟨f.name, pptxMime, extractPptxText ar, none⟩) := by
  unfold classifyFile at h
  split at h
  case isTrue himg =>
    left
    injection h with h
    exact ⟨himg, h.symm⟩
  case isFalse himg =>
    split at h
    case isTrue hpdf =>
      right; left
      refine ⟨by simpa using himg, hpdf, ?_⟩
      cases hed : extractPdfText f.pdfDoc with
      | ok text =>
          rw [hed] at h
          injection h with h
          exact ⟨text, rfl, h.symm⟩
      | error m => rw [hed] at h; exact absurd h (by simp)
    case isFalse hpdf =>
      split at h
      case isTrue hpptx =>
        right; right
        refine ⟨by simpa using himg, by simpa using hpdf, hpptx, ?_⟩
        cases hz : f.pptx with
        | some ar =>
            rw [hz] at h
            injection h with h
            exact ⟨ar, rfl, h.symm⟩
        | none => rw [hz] at h; exact absurd h (by simp)
      case isFalse hpptx => exact absurd h (by simp)

theorem mem_handleFileChange_records {files : List RawFile} {u : UploadedFile}
    (h : u ∈ (handleFileChange files).1) : ∃ f ∈ files, processFile f = .ok u := by
  have h' : u ∈ files.filterMap (fun f => exceptOk? (processFile f)) := by
    rw [handleFileChange_eq] at h
    exact h
  rcases List.mem_filterMap.mp h' with ⟨f, hf, hok⟩
  refine ⟨f, hf, ?_⟩
  cases hpf : processFile f with
  | ok v =>
      rw [hpf] at hok
      simp only [exceptOk?, Option.some.injEq] at hok
      rw [hok]
  | error m => rw [hpf] at hok; exact absurd hok (by simp [exceptErr?, exceptOk?])

/-- C9: in every record the Ingestion Coordinator produces, the `preview`
field is set if and only if the stored `type` begins with `image/`, and a
set `preview` always equals the record's `data` (the base64 data URL of an
image-routed file). -/
theorem record_preview_invariant (files : List RawFile) (u : UploadedFile)
    (h : u ∈ (handleFileChange files).1) :
    (u.preview.isSome = true ↔ startsWithStr u.type "image/" = true) ∧
    (∀ p, u.preview = some p → p = u.data) := by
  obtain ⟨f, -, hok⟩ := mem_handleFileChange_records h
  rcases classifyFile_cases (processFile_ok_classify hok) with
    ⟨himg, rfl⟩ | ⟨-, -, text, -, rfl⟩ | ⟨-, -, -, ar, -, rfl⟩
  · refine ⟨by simpa using himg, fun p hp => ?_⟩
    simp only [Option.some.injEq] at hp
    exact hp.symm
  · exact ⟨by simp [show startsWithStr "application/pdf" "image/" = false by decide],
      fun p hp => by exact absurd hp (by simp)⟩
  · exact ⟨by simp [show startsWithStr pptxMime "image/" = false by decide],
      fun p hp => by exact absurd hp (by simp)⟩

/-- Witness for C9: a one-image batch produces a record whose preview is set
(its type starts with `image/`) and equals its data. -/
theorem record_preview_invariant_witness :
    ((UploadedFile.mk "pic.png" "image/png" "data:image/png;base64,AAA"
        (some "data:image/png;base64,AAA")).preview.isSome = true ↔
      startsWithStr (UploadedFile.mk "pic.png" "image/png" "data:image/png;base64,AAA"
        (some "data:image/png;base64,AAA")).type "image/" = true) ∧
    (∀ p, (UploadedFile.mk "pic.png" "image/png" "data:image/png;base64,AAA"
        (some "data:image/png;base64,AAA")).preview = some p →
      p = (UploadedFile.mk "pic.png" "image/png" "data:image/png;base64,AAA"
        (some "data:image/png;base64,AAA")).data) :=
  record_preview_invariant
    [⟨"pic.png", "image/png", 5, "data:image/png;base64,AAA", none, none⟩] _ (by decide)

/-- C10: a file dispatched to the PDF route (not image-MIME, and named
`*.pdf` case-insensitively or declared `application/pdf`) is stored with
type exactly `application/pdf`, and one dispatched to the PPTX route with
exactly the PPTX MIME type, whatever MIME type the file declared. -/
theorem document_mime_override (f : RawFile) (u : UploadedFile)
    (h : processFile f = .ok u) :
    (startsWithStr f.type "image/" = false →
      (endsWithStr (toLowerStr f.name) ".pdf" || decide (f.type = "application/pdf")) = true →
      u.type = "application/pdf") ∧
    (startsWithStr f.type "image/" = false →
      (endsWithStr (toLowerStr f.name) ".pdf" || decide (f.type = "application/pdf")) = false →
      endsWithStr (toLowerStr f.name) ".pptx" = true →
      u.type = pptxMime) := by
  rcases classifyFile_cases (processFile_ok_classify h) with
    ⟨himg, rfl⟩ | ⟨himg, hpdf, text, hx, rfl⟩ | ⟨himg, hpdf, hpptx, ar, hx, rfl⟩
  · exact ⟨fun hni _ => by simp [hni] at himg, fun hni _ _ => by simp [hni] at himg⟩
  · exact ⟨fun _ _ => rfl, fun _ hc _ => by simp [hc] at hpdf⟩
  · exact ⟨fun _ hc => by simp [hc] at hpdf, fun _ _ _ => rfl⟩

/-- Witness for C10: a file named `Doc.PDF` with declared MIME `text/weird`
is stored as `application/pdf`; a file named `deck.pptx` with the same
declared MIME is stored with the PPTX MIME type. -/
theorem document_mime_override_witness :
    (UploadedFile.mk "Doc.PDF" "application/pdf" "" none).type = "application/pdf" ∧
    (UploadedFile.mk "deck.pptx" pptxMime "" none).type = pptxMime :=
  ⟨(document_mime_override ⟨"Doc.PDF", "text/weird", 10, "", some [], none⟩
      (UploadedFile.mk "Doc.PDF" "application/pdf" "" none) (by decide)).1
      (by decide) (by decide),
   (document_mime_override ⟨"deck.pptx", "text/weird", 10, "", none, some []⟩
      (UploadedFile.mk "deck.pptx" pptxMime "" none) (by decide)).2
      (by decide) (by decide) (by decide)⟩

/-- The name of the notes part for slide number `n`. -/
def notesNameOf (n : String) : String :=
  "ppt/notesSlides/notesSlide" ++ n ++ ".xml"

/-- C2 (amended): the extractor appends, for each archive entry matching the
slide filter in enumeration order, that slide's chunk, where every case of
one entry is characterized: a slide whose XML matched at least one text run
gets the `--- Slide {N} ---` marker block with the stripped runs joined by
single spaces — alone when no numbered notes part exists (clause 2) or when
the notes part matched no run (clause 3), followed by the
`[Slide {N} Notes: ...]` line when the notes part exists and matched at
least one run (clause 4); a slide with no text run emits no marker block,
yet still emits the notes line alone when the notes part exists with runs
(clause 5), and contributes nothing when no notes part exists (clause 6) or
the notes part has no run (clause 7); the spec's Intro/notes example yields
exactly its block. -/
theorem pptx_slide_blocks (ar : PptxArchive) :
    extractPptxText ar =
      strConcat ((ar.filter (fun e => isSlideEntry e.1)).map (slideChunk ar)) ∧
    (∀ e r rs, textRuns e.2 = r :: rs →
      entryAt ar (notesNameOf (slideNumOf e.1)) = none →
      slideChunk ar e =
        "--- Slide " ++ slideNumOf e.1 ++ " ---\n" ++
          String.intercalate " " ((r :: rs).map stripRunTags) ++ "\n") ∧
    (∀ e r rs nc, textRuns e.2 = r :: rs →
      entryAt ar (notesNameOf (slideNumOf e.1)) = some nc →
      textRuns nc = [] →
      slideChunk ar e =
        "--- Slide " ++ slideNumOf e.1 ++ " ---\n" ++
          String.intercalate " " ((r :: rs).map stripRunTags) ++ "\n") ∧
    (∀ e r rs nc nr nrs,
      textRuns e.2 = r :: rs →
      entryAt ar (notesNameOf (slideNumOf e.1)) = some nc →
      textRuns nc = nr :: nrs →
      slideChunk ar e =
        "--- Slide " ++ slideNumOf e.1 ++ " ---\n" ++
          String.intercalate " " ((r :: rs).map stripRunTags) ++ "\n" ++
          ("[Slide " ++ slideNumOf e.1 ++ " Notes: " ++
            String.intercalate " " ((nr :: nrs).map stripRunTags) ++ "]\n")) ∧
    (∀ e nc nr nrs, textRuns e.2 = [] →
      entryAt ar (notesNameOf (slideNumOf e.1)) = some nc →
      textRuns nc = nr :: nrs →
      slideChunk ar e =
        "[Slide " ++ slideNumOf e.1 ++ " Notes: " ++
          String.intercalate " " ((nr :: nrs).map stripRunTags) ++ "]\n") ∧
    (∀ e, textRuns e.2 = [] →
      entryAt ar (notesNameOf (slideNumOf e.1)) = none →
      slideChunk ar e = "") ∧
    (∀ e nc, textRuns e.2 = [] →
      entryAt ar (notesNameOf (slideNumOf e.1)) = some nc →
      textRuns nc = [] →
      slideChunk ar e = "") ∧
    extractPptxText
      [("ppt/slides/slide1.xml", "<a:t>Intro</a:t>"),
       ("ppt/notesSlides/notesSlide1.xml", "<a:t>remember X</a:t>")] =
      "--- Slide 1 ---" ++ "\n" ++ "Intro" ++ "\n" ++
        ("[Slide 1 Notes: " ++ "remember X" ++ "]" ++ "\n") := by
  refine ⟨?_, ?_, ?_, ?_, ?_, ?_, ?_, by decide⟩
  · have h := foldl_append_eq_strConcat (slideChunk ar) (ar.filter (fun e => isSlideEntry e.1)) ""
    rw [String.empty_append] at h
    exact h
  · intro e r rs h1 h2
    simp only [slideChunk, notesNameOf] at h2 ⊢
    rw [h1, h2]
    simp [String.append_empty]
  · intro e r rs nc h1 h2 h3
    simp only [slideChunk, notesNameOf] at h2 ⊢
    rw [h1, h2]
    simp [h3, String.append_empty]
  · intro e r rs nc nr nrs h1 h2 h3
    simp only [slideChunk, notesNameOf] at h2 ⊢
    rw [h1, h2]
    simp [h3, String.append_assoc]
  · intro e nc nr nrs h1 h2 h3
    simp only [slideChunk, notesNameOf] at h2 ⊢
    rw [h1, h2]
    simp [h3, String.empty_append]
  · intro e h1 h2
    simp only [slideChunk, notesNameOf] at h2 ⊢
    rw [h1, h2]
    rfl
  · intro e nc h1 h2 h3
    simp only [slideChunk, notesNameOf] at h2 ⊢
    rw [h1, h2]
    simp [h3]

/-- Witness for C2's conditional clauses, one concrete archive per case: a
slide with runs and no notes part yields the marker block alone; a slide
with runs whose notes part has no run yields the marker block alone; the
Intro slide with a populated notes part yields the marker block plus the
notes line; a run-less slide with a populated notes part yields the notes
line alone (no marker); a run-less slide with no notes part, or with a
run-less notes part, yields nothing. -/
theorem pptx_slide_blocks_witness :
    slideChunk [("ppt/slides/slide7.xml", "<a:t>Solo</a:t>")]
      ("ppt/slides/slide7.xml", "<a:t>Solo</a:t>") =
      "--- Slide " ++ "7" ++ " ---\n" ++
        String.intercalate " " (["<a:t>Solo</a:t>"].map stripRunTags) ++ "\n" ∧
    slideChunk
      [("ppt/slides/slide8.xml", "<a:t>Body</a:t>"),
       ("ppt/notesSlides/notesSlide8.xml", "<x/>")]
      ("ppt/slides/slide8.xml", "<a:t>Body</a:t>") =
      "--- Slide " ++ "8" ++ " ---\n" ++
        String.intercalate " " (["<a:t>Body</a:t>"].map stripRunTags) ++ "\n" ∧
    slideChunk
      [("ppt/slides/slide1.xml", "<a:t>Intro</a:t>"),
       ("ppt/notesSlides/notesSlide1.xml", "<a:t>remember X</a:t>")]
      ("ppt/slides/slide1.xml", "<a:t>Intro</a:t>") =
      "--- Slide " ++ "1" ++ " ---\n" ++
        String.intercalate " " (["<a:t>Intro</a:t>"].map stripRunTags) ++ "\n" ++
        ("[Slide " ++ "1" ++ " Notes: " ++
          String.intercalate " " (["<a:t>remember X</a:t>"].map stripRunTags) ++ "]\n") ∧
    slideChunk
      [("ppt/slides/slide2.xml", "<p:sp/>"),
       ("ppt/notesSlides/notesSlide2.xml", "<a:t>hidden note</a:t>")]
      ("ppt/slides/slide2.xml", "<p:sp/>") =
      "[Slide " ++ "2" ++ " Notes: " ++
        String.intercalate " " (["<a:t>hidden note</a:t>"].map stripRunTags) ++ "]\n" ∧
    slideChunk [("ppt/slides/slide9.xml", "<p:sp/>")]
      ("ppt/slides/slide9.xml", "<p:sp/>") = "" ∧
    slideChunk
      [("ppt/slides/slide3.xml", "<p:sp/>"),
       ("ppt/notesSlides/notesSlide3.xml", "<y/>")]
      ("ppt/slides/slide3.xml", "<p:sp/>") = "" := by
  refine ⟨?_, ?_, ?_, ?_, ?_, ?_⟩
  · exact (pptx_slide_blocks [("ppt/slides/slide7.xml", "<a:t>Solo</a:t>")]).2.1
      ("ppt/slides/slide7.xml", "<a:t>Solo</a:t>") "<a:t>Solo</a:t>" []
      (by decide) (by decide)
  · exact (pptx_slide_blocks
      [("ppt/slides/slide8.xml", "<a:t>Body</a:t>"),
       ("ppt/notesSlides/notesSlide8.xml", "<x/>")]).2.2.1
      ("ppt/slides/slide8.xml", "<a:t>Body</a:t>") "<a:t>Body</a:t>" [] "<x/>"
      (by decide) (by decide) (by decide)
  · have h := (pptx_slide_blocks
      [("ppt/slides/slide1.xml", "<a:t>Intro</a:t>"),
       ("ppt/notesSlides/notesSlide1.xml", "<a:t>remember X</a:t>")]).2.2.2.1
      ("ppt/slides/slide1.xml", "<a:t>Intro</a:t>")
      "<a:t>Intro</a:t>" [] "<a:t>remember X</a:t>" "<a:t>remember X</a:t>" []
      (by decide) (by decide) (by decide)
    simpa using h
  · exact (pptx_slide_blocks
      [("ppt/slides/slide2.xml", "<p:sp/>"),
       ("ppt/notesSlides/notesSlide2.xml", "<a:t>hidden note</a:t>")]).2.2.2.2.1
      ("ppt/slides/slide2.xml", "<p:sp/>") "<a:t>hidden note</a:t>" "<a:t>hidden note</a:t>" []
      (by decide) (by decide) (by decide)
  · exact (pptx_slide_blocks [("ppt/slides/slide9.xml", "<p:sp/>")]).2.2.2.2.2.1
      ("ppt/slides/slide9.xml", "<p:sp/>") (by decide) (by decide)
  · exact (pptx_slide_blocks
      [("ppt/slides/slide3.xml", "<p:sp/>"),
       ("ppt/notesSlides/notesSlide3.xml", "<y/>")]).2.2.2.2.2.2.1
      ("ppt/slides/slide3.xml", "<p:sp/>") "<y/>" (by decide) (by decide) (by decide)

/-- Modelled from the spec: the claim's Presentation Extractor, which emits
the marker block for EVERY matching slide entry — also one whose XML has no
text run — and appends the notes line whenever the numbered notes part
exists, regardless of that part's runs. -/
def extractPptxTextSpec (ar : PptxArchive) : String :=
  strConcat ((ar.filter (fun e => isSlideEntry e.1)).map (fun e =>
    "--- Slide " ++ slideNumOf e.1 ++ " ---\n" ++
      String.intercalate " " ((textRuns e.2).map stripRunTags) ++ "\n" ++
      (match entryAt ar (notesNameOf (slideNumOf e.1)) with
       | none => ""
       | some nc =>
           "[Slide " ++ slideNumOf e.1 ++ " Notes: " ++
             String.intercalate " " ((textRuns nc).map stripRunTags) ++ "]\n")))

/-- Counterexample to C2 as stated: a slide entry whose XML has no text run
(`content.match` returns `null`) emits NO block at all — the claimed
`--- Slide 1 ---` marker never appears — unlike the claim's extractor which
emits a marker block for every slide entry. -/
theorem pptx_slide_blocks_counterexample :
    extractPptxText [("ppt/slides/slide1.xml", "<p:sp/>")] = "" ∧
    extractPptxTextSpec [("ppt/slides/slide1.xml", "<p:sp/>")] = "--- Slide 1 ---\n\n" ∧
    extractPptxText [("ppt/slides/slide1.xml", "<p:sp/>")] ≠
      extractPptxTextSpec [("ppt/slides/slide1.xml", "<p:sp/>")] :=
  ⟨by decide, by decide, by decide⟩

/-- Witness for C8: a file of 50 MiB + 1 byte is rejected with the message
naming it and leaves a batch's records unchanged; a file of exactly 50 MiB
passes the size check. -/
theorem size_ceiling_witness :
    processFile ⟨"big.bin", "application/octet-stream", 52428801, "", none, none⟩ =
      .error (sizeErrMsg "big.bin") ∧
    processFile ⟨"deck.pptx", "text/plain", 52428800, "", none, some []⟩ =
      classifyFile ⟨"deck.pptx", "text/plain", 52428800, "", none, some []⟩ ∧
    (handleFileChange
        ([] ++ ⟨"big.bin", "application/octet-stream", 52428801, "", none, none⟩ ::
          [⟨"deck.pptx", "text/plain", 10, "", none, some []⟩])).1 =
      (handleFileChange ([] ++ [⟨"deck.pptx", "text/plain", 10, "", none, some []⟩])).1 :=
  ⟨(size_ceiling _).1 (by decide), (size_ceiling _).2.1 (by decide),
    (size_ceiling _).2.2 [] [⟨"deck.pptx", "text/plain", 10, "", none, some []⟩] (by decide)⟩

/-- C4: between two consecutive fragments of one reconstructed line, with
`gap = next.x - (current.x + current.w)` and `w` defaulting to 0 when
absent, a gap above 20 inserts exactly four spaces, a gap above 2 exactly
one space, and otherwise nothing; in particular gap 25 yields `"A    B"`,
gap 10 yields `"A B"`, and gap 1 yields `"AB"`. -/
theorem spacing_heuristic_thresholds :
    (∀ c n rest, lineText (c :: n :: rest) =
      c.str ++
        (if n.x - (c.x + c.width.getD 0) > 20 then "    "
         else if n.x - (c.x + c.width.getD 0) > 2 then " " else "") ++
        lineText (n :: rest)) ∧
    lineText [⟨"A", 0, 0, some 5⟩, ⟨"B", 30, 0, none⟩] = "A    B" ∧
    lineText [⟨"A", 0, 0, some 5⟩, ⟨"B", 15, 0, none⟩] = "A B" ∧
    lineText [⟨"A", 0, 0, some 5⟩, ⟨"B", 6, 0, none⟩] = "AB" := by
  refine ⟨fun c n rest => rfl, by decide, by decide, by decide⟩

/-- C6: a successfully decoded PDF is processed page by page in ascending
1-based order, each page's reconstructed text is prefixed by the marker
line `--- Page {i} ---`, and the page blocks are concatenated with a blank
line between consecutive blocks; the 2-page Alpha/Beta document yields
`--- Page 1 ---` before `Alpha` before `--- Page 2 ---` before `Beta`. -/
theorem pdf_pages_ascending_tagged (pages : List (List PdfItem)) :
    extractPdfText (some (pages.map some)) =
      .ok (strConcat ((List.enumFrom 1 pages).map pageBlock)) ∧
    extractPdfText (some [some [⟨"Alpha", 0, 0, none⟩], some [⟨"Beta", 0, 0, none⟩]]) =
      .ok ("--- Page 1 ---" ++ "\n" ++ "Alpha" ++ "\n\n\n" ++
           "--- Page 2 ---" ++ "\n" ++ "Beta" ++ "\n\n\n") := by
  constructor
  · show pdfPagesLoop 1 (pages.map some) "" = _
    rw [pdfPagesLoop_ok pages 1 "", String.empty_append]
  · decide

/-- C7: a PDF whose decode fails, or any of whose pages fails to extract,
makes `extractPdfText` fail as a whole with the single user-facing error
message, returning no partial text. -/
theorem pdf_extraction_atomic :
    extractPdfText none = .error pdfErrMsg ∧
    ∀ pages, none ∈ pages → extractPdfText (some pages) = .error pdfErrMsg := by
  refine ⟨rfl, fun pages h => ?_⟩
  show pdfPagesLoop 1 pages "" = _
  exact pdfPagesLoop_err pages 1 "" h

/-- Witness for C7: a document whose first page extracts fine and whose
second page fails yields the single error, not the first page's text. -/
theorem pdf_extraction_atomic_witness :
    extractPdfText (some [some [⟨"Alpha", 0, 0, none⟩], none]) = .error pdfErrMsg :=
  pdf_extraction_atomic.2 [some [⟨"Alpha", 0, 0, none⟩], none] (by simp)
